import Mathlib

/-!
Shallow embedding of the tiny-http-explorer file server (src/src/main.rs).

Paths are modelled as lists of name components (`Segs`), absolute from the
filesystem root.  The filesystem itself is an abstract oracle (`Fs`) whose
operations may fail, mirroring the tokio/std fs calls the code makes; this
also lets races (a file existing at the `exists` check but failing at the
`read`) be expressed.  `handler`, `root_handler`, `list_dir` and `route`
are direct translations of the Rust functions of the same names.
-/

namespace THS

/-- A filesystem path as a list of name components, absolute from `/`. -/
abbrev Segs := List String

/-- Splits a character list at every occurrence of `c`; accumulator holds the
current (reversed) component. -/
def splitCharAux (c : Char) : List Char → List Char → List (List Char)
  | [], acc => [acc.reverse]
  | d :: ds, acc =>
    if d = c then acc.reverse :: splitCharAux c ds []
    else splitCharAux c ds (d :: acc)

/-- Splits a string at every occurrence of `c`. -/
def splitChar (c : Char) (s : String) : List String :=
  (splitCharAux c s.data []).map String.mk

/-- The path components of a captured request path, as the OS sees them when
the Rust code queries the joined `PathBuf`: split on `/`, empty components
and `.` are no-ops. `..` components are kept (resolved by `normSegs`). -/
def pathSegs (s : String) : Segs :=
  (splitChar '/' s).filter (fun t => !(t == "") && !(t == "."))

/-- Joins components back with `/` (no leading slash). -/
def joinSegs : Segs → String
  | [] => ""
  | [s] => s
  | s :: s2 :: rest => s ++ "/" ++ joinSegs (s2 :: rest)

/-- OS-level resolution of `.` and `..` components against an absolute path:
`..` pops the last component (at the root it stays at the root), `.` is a
no-op.  The Rust code never normalizes textually; the operating system does
this when `exists` / `is_dir` / `read_dir` / `read` are invoked on the
joined path. -/
def normSegs (segs : Segs) : Segs :=
  segs.foldl (fun acc seg =>
    if seg = "." then acc
    else if seg = ".." then acc.dropLast
    else acc ++ [seg]) []

/-- Component-wise `Path::strip_prefix`: removes `base` from the front of a
path, `none` (an error in Rust) when `base` is not a component-prefix. -/
def stripPre : Segs → Segs → Option Segs
  | [], p => some p
  | _ :: _, [] => none
  | b :: bs, q :: qs => if b = q then stripPre bs qs else none

/-- Metadata of one directory entry (`entry.metadata().await`). -/
structure FileMeta where
  isDir : Bool
  len : Nat
deriving DecidableEq, Repr

deriving instance DecidableEq for Except

/-- One entry returned by `read_dir`; its metadata lookup may itself fail. -/
structure DirEntry where
  name : String
  metadata : Except String FileMeta
deriving DecidableEq, Repr

/-- Abstract filesystem oracle.  All queries take the OS-resolved (normalized)
absolute path.  `readFile` may fail even when `pathExists` returned `true`:
this models a file disappearing between the existence check and the read. -/
structure Fs where
  pathExists : Segs → Bool
  isDir : Segs → Bool
  readDir : Segs → Except String (List DirEntry)
  readFile : Segs → Except String (List Nat)

/-- An HTTP response body: HTML/plain text (`Html<String>` or the empty body
of a bare status code) or raw file bytes (`Vec<u8>`). -/
inductive Body where
  | text (s : String)
  | bytes (b : List Nat)
deriving DecidableEq, Repr

/-- The parts of an axum `Response` the core produces: status code, optional
`Content-Type` header value, and the body. -/
structure Response where
  status : Nat
  contentType : Option String
  body : Body
deriving DecidableEq, Repr

/-- Rust `Path::extension()` on a file name: the part after the last `.`,
`none` when there is no `.` or the name is a pure dot-file like `.bashrc`. -/
def extOfName (name : String) : Option String :=
  match splitChar '.' name with
  | [] => none
  | [_] => none
  | first :: rest =>
    if first = "" ∧ rest.length = 1 then none
    else rest.getLast?

/-- Lower-cases a string character by character (as `mime_guess` does with
the extension before its table lookup). -/
def strLower (s : String) : String := String.mk (s.data.map Char.toLower)

/-- Model of the external crate call
`mime_guess::from_path(p).first_or_text_plain()`, restricted to the
extensions relevant here (`.html`/`.htm` → `text/html`, `.json` →
`application/json`, `.txt` → `text/plain`, `.css` → `text/css`), with the
crate's fallback `text/plain` for an unknown or absent extension. -/
def mimeOfExt : Option String → String
  | some e₀ =>
    let e := strLower e₀
    if e = "html" ∨ e = "htm" then "text/html"
    else if e = "json" then "application/json"
    else if e = "css" then "text/css"
    else "text/plain"
  | none => "text/plain"

/-- `mime_guess::from_path` uses the extension of the path's last component. -/
def mimeFromPath (p : Segs) : String :=
  match p.getLast? with
  | none => "text/plain"
  | some name => mimeOfExt (extOfName name)

/-- The directory/file indicator of `list_dir`. -/
def entryIcon (md : FileMeta) : String :=
  if md.isDir then "📁" else "📄"

/-- The `href` attribute `list_dir` computes for an entry: the entry's full
path (`dir_path.join(file_name)`) stripped of `base_path`, prefixed with
`/`.  `none` models `strip_prefix` failing. -/
def linkPathOf (basePath dirPath : Segs) (name : String) : Option String :=
  (stripPre basePath (dirPath ++ [name])).map (fun d => "/" ++ joinSegs d)

/-- One `<li>` of the listing, exactly as `format!` builds it in `list_dir`. -/
def entryHtml (icon link name : String) (len : Nat) : String :=
  "<li>" ++ icon ++ " <a href=\"" ++ link ++ "\">" ++ name ++ "</a>  - "
    ++ toString len ++ " bytes</li>"

/-- The loop body of `list_dir` for one entry: metadata lookup (may fail),
then the formatted list item. -/
def renderEntry (dirPath basePath : Segs) (e : DirEntry) : Except String String := do
  let md ← e.metadata
  match linkPathOf basePath dirPath e.name with
  | none => Except.error "StripPrefixError"
  | some link => Except.ok (entryHtml (entryIcon md) link e.name md.len)

/-- The `while let` loop of `list_dir`: renders every entry in order, failing
on the first error (`?` operator). -/
def renderEntries (dirPath basePath : Segs) : List DirEntry → Except String (List String)
  | [] => Except.ok []
  | e :: rest => do
    let item ← renderEntry dirPath basePath e
    let items ← renderEntries dirPath basePath rest
    Except.ok (item :: items)

/-- Translation of `list_dir(dir_path, base_path)`: `read_dir` (the OS
resolves the possibly non-normal `dir_path`), render every entry, wrap in
the fixed HTML shell. -/
def list_dir (fs : Fs) (dir_path base_path : Segs) : Except String String := do
  let entries ← fs.readDir (normSegs dir_path)
  let items ← renderEntries dir_path base_path entries
  Except.ok ("<html><body><ul>" ++ String.join items ++ "</ul></body></html>")

/-- Translation of `root_handler`: lists the configured root directory;
both arms wrap the body in `Html`, so `Content-Type: text/html` is set even
on the error arm, whose body is the error's display string. -/
def root_handler (fs : Fs) (root : Segs) : Response :=
  match list_dir fs root root with
  | Except.ok body => { status := 200, contentType := some "text/html", body := Body.text body }
  | Except.error e => { status := 500, contentType := some "text/html", body := Body.text e }

/-- The body of `handler` after the join: `p` is the joined (unnormalized)
path, queried through the OS (`normSegs`).  A bare `StatusCode` response has
an empty body and no `Content-Type`. -/
def handlerCore (fs : Fs) (root p : Segs) : Response :=
  if !(fs.pathExists (normSegs p)) then
    { status := 404, contentType := none, body := Body.text "" }
  else if fs.isDir (normSegs p) then
    match list_dir fs p root with
    | Except.ok body => { status := 200, contentType := some "text/html", body := Body.text body }
    | Except.error _ => { status := 500, contentType := none, body := Body.text "" }
  else
    match fs.readFile (normSegs p) with
    | Except.ok content =>
      { status := 200, contentType := some (mimeFromPath p), body := Body.bytes content }
    | Except.error _ => { status := 500, contentType := none, body := Body.text "" }

/-- Translation of `handler`: `Path::new(&state.path).join(path)` appends the
captured path's components to the root, with no containment check. -/
def handler (fs : Fs) (root : Segs) (path : String) : Response :=
  handlerCore fs root (root ++ pathSegs path)

/-- Where the axum router sends a request path. -/
inductive RouteTarget where
  | towerStatic (rest : String)
  | rootRoute
  | wildcardRoute (captured : String)
  | noRoute
deriving DecidableEq, Repr

/-- Whether `pre` starts the string `s` (character-wise). -/
def strStarts (pre s : String) : Bool := List.isPrefixOf pre.data s.data

/-- Drops the first `n` characters of a string. -/
def strDrop (s : String) (n : Nat) : String := String.mk (s.data.drop n)

/-- Translation of the `Router::new()` chain in `process_http_server`:
`nest_service("/tower", ServeDir)` takes `/tower` and everything under it,
`route("/", root_handler)` takes exactly `/`, and `route("/*path", handler)`
captures the rest of any other slash-led path (without the leading slash). -/
def route (reqPath : String) : RouteTarget :=
  if reqPath = "/tower" then RouteTarget.towerStatic ""
  else if strStarts "/tower/" reqPath then RouteTarget.towerStatic (strDrop reqPath 7)
  else if reqPath = "/" then RouteTarget.rootRoute
  else if strStarts "/" reqPath then RouteTarget.wildcardRoute (strDrop reqPath 1)
  else RouteTarget.noRoute

/-! ### Spec-side definitions (for refinement-style comparison) -/

/-- Modelled from the spec (§4.4, §7): resolver `NotFound` maps to 404,
renderer/responder failure to 500, everything else to 200. -/
def specStatus (fs : Fs) (root : Segs) (path : String) : Nat :=
  let p := root ++ pathSegs path
  let np := normSegs p
  if fs.pathExists np = false then 404
  else if fs.isDir np = true then
    match list_dir fs p root with
    | Except.ok _ => 200
    | Except.error _ => 500
  else
    match fs.readFile np with
    | Except.ok _ => 200
    | Except.error _ => 500

/-- Modelled from the spec: a URL-encoded path percent-escapes every character
that may not appear raw in a URL path; in particular a raw space never occurs
in a URL-encoded string. -/
def urlSafeChar (c : Char) : Bool :=
  c.isAlphanum || c == '-' || c == '.' || c == '_' || c == '~' || c == '/' || c == '%'

/-- Modelled from the spec: whether a string is URL-encoded. -/
def isUrlEncodedStr (s : String) : Bool := s.data.all urlSafeChar

/-- Modelled from the spec: a 500 body "describing the failure" is at least a
nonempty piece of text. -/
def bodyDescribes (r : Response) : Bool :=
  match r.body with
  | Body.text s => !(s == "")
  | Body.bytes _ => false

/-- A well-formed single path component: nonempty, not `.`, containing no `/`
(real directory entries always satisfy this). -/
def validSeg (s : String) : Bool :=
  !(s == "") && !(s == ".") && !(s.data.contains '/')

/-! ### Concrete fixture filesystems -/

/-- Root `/srv/www`; a file `/srv/secret` lives NEXT TO the root. -/
def escFs : Fs := {
  pathExists := fun q => q == ["srv", "secret"] || q == ["srv", "www"],
  isDir := fun q => q == ["srv", "www"],
  readDir := fun _ => Except.error "unused",
  readFile := fun q => if q == ["srv", "secret"] then Except.ok [115, 51, 99] else Except.error "nf" }

/-- Root `/r`; `/r/gone` passes the existence check but its read fails, as for
a file deleted between the `exists` call and the `read` call. -/
def raceFs : Fs := {
  pathExists := fun q => q == ["r", "gone"] || q == ["r"],
  isDir := fun q => q == ["r"],
  readDir := fun _ => Except.error "unused",
  readFile := fun _ => Except.error "No such file or directory" }

/-- Root `/srv/www` holding the single file `a b.txt` (3 bytes). -/
def spaceFs : Fs := {
  pathExists := fun q => q == ["srv", "www"] || q == ["srv", "www", "a b.txt"],
  isDir := fun q => q == ["srv", "www"],
  readDir := fun q =>
    if q == ["srv", "www"] then
      Except.ok [{ name := "a b.txt", metadata := Except.ok { isDir := false, len := 3 } }]
    else Except.error "nf",
  readFile := fun q =>
    if q == ["srv", "www", "a b.txt"] then Except.ok [97, 32, 98] else Except.error "nf" }

/-- Root `/r` with subdirectory `/r/sub`; every directory enumeration fails. -/
def failFs : Fs := {
  pathExists := fun q => q == ["r"] || q == ["r", "sub"],
  isDir := fun q => q == ["r"] || q == ["r", "sub"],
  readDir := fun _ => Except.error "boom",
  readFile := fun _ => Except.error "nf" }

/-- Root `/r` whose enumeration succeeds but whose single entry's metadata
lookup fails. -/
def metaFailFs : Fs := {
  pathExists := fun q => q == ["r"],
  isDir := fun q => q == ["r"],
  readDir := fun q =>
    if q == ["r"] then Except.ok [{ name := "ghost", metadata := Except.error "denied" }]
    else Except.error "nf",
  readFile := fun _ => Except.error "nf" }

/-- Root `/r`, empty: enumeration succeeds with no entries. -/
def emptyDirFs : Fs := {
  pathExists := fun q => q == ["r"],
  isDir := fun q => q == ["r"],
  readDir := fun q => if q == ["r"] then Except.ok [] else Except.error "nf",
  readFile := fun _ => Except.error "nf" }

/-! ### Claims -/

/-- C1: the spec demands that a request whose canonical form escapes the root
be answered 404 and never with the escaped file's content.  The code performs
no containment check: with root `/srv/www` and a file `/srv/secret` beside it,
the request path `../secret` canonicalizes to `/srv/secret` (not a descendant
of the root), yet the handler answers 200 with exactly that file's bytes. -/
theorem traversal_request_served :
    handler escFs ["srv", "www"] "../secret" =
      { status := 200, contentType := some "text/plain", body := Body.bytes [115, 51, 99] } ∧
    escFs.readFile ["srv", "secret"] = Except.ok [115, 51, 99] ∧
    normSegs (["srv", "www"] ++ pathSegs "../secret") = ["srv", "secret"] ∧
    List.isPrefixOf ["srv", "www"] ["srv", "secret"] = false := by
  refine ⟨by decide, by decide, by decide, by decide⟩

/-- C2: the handler's status is exactly the spec's mapping — 404 when the
resolved path does not exist, 200/500 by rendering success for a directory,
200/500 by read success for a file — no other status occurs, and a file that
passes the existence check but whose read fails (deleted in between) yields
500, not 404. -/
theorem handler_status_classes :
    (∀ (fs : Fs) (root : Segs) (path : String),
        (handler fs root path).status = specStatus fs root path) ∧
    (∀ (fs : Fs) (root : Segs) (path : String),
        (handler fs root path).status = 200 ∨ (handler fs root path).status = 404 ∨
          (handler fs root path).status = 500) ∧
    (handler raceFs ["r"] "gone").status = 500 := by
  have key : ∀ (fs : Fs) (root : Segs) (path : String),
      (handler fs root path).status = specStatus fs root path := by
    intro fs root path
    unfold handler handlerCore specStatus
    cases hex : fs.pathExists (normSegs (root ++ pathSegs path)) with
    | false => simp [hex]
    | true =>
      cases hdir : fs.isDir (normSegs (root ++ pathSegs path)) with
      | false =>
        simp only [hex, hdir, Bool.not_true, if_false, Bool.false_eq_true, ite_false,
          Bool.true_eq_false]
        cases hrf : fs.readFile (normSegs (root ++ pathSegs path)) <;> simp [hrf]
      | true =>
        simp only [hex, hdir, Bool.not_true, if_false, Bool.false_eq_true, ite_false,
          Bool.true_eq_false]
        cases hld : list_dir fs (root ++ pathSegs path) root <;> simp [hld]
  refine ⟨key, ?_, by decide⟩
  intro fs root path
  rw [key fs root path]
  unfold specStatus
  by_cases hex : fs.pathExists (normSegs (root ++ pathSegs path)) = false
  · simp [hex]
  · by_cases hdir : fs.isDir (normSegs (root ++ pathSegs path)) = true
    · simp only [hex, hdir, if_true, if_false]
      cases list_dir fs (root ++ pathSegs path) root <;> simp
    · simp only [hex, hdir, if_true, if_false]
      cases fs.readFile (normSegs (root ++ pathSegs path)) <;> simp

/-- C3 counterexample: the spec says each link href is URL-encoded.  The code
interpolates the relative path verbatim: for an entry named `a b.txt` the
rendered href is `/a b.txt`, which contains a raw space and is therefore not
URL-encoded. -/
theorem listing_link_not_urlencoded :
    list_dir spaceFs ["srv", "www"] ["srv", "www"] =
      Except.ok
        "<html><body><ul><li>📄 <a href=\"/a b.txt\">a b.txt</a>  - 3 bytes</li></ul></body></html>" ∧
    linkPathOf ["srv", "www"] ["srv", "www"] "a b.txt" = some "/a b.txt" ∧
    isUrlEncodedStr "/a b.txt" = false := by
  refine ⟨by decide, by decide, by decide⟩

/-- C7 counterexample: the spec says every 500 on an I/O error carries a
plain-text body describing the failure.  When the non-root handler's
directory listing fails, the code answers a bare 500 whose body is empty. -/
theorem dir_error_500_empty_body :
    handler failFs ["r"] "sub" = { status := 500, contentType := none, body := Body.text "" } ∧
    bodyDescribes (handler failFs ["r"] "sub") = false := by
  refine ⟨by decide, by decide⟩

/-- C8 counterexample: on a listing failure the root route answers 500 with
the error text as body (wrapped in `Html`), while the general directory
branch answers a bare 500 with an empty body — the two are not identical. -/
theorem root_vs_dir_branch_differ :
    root_handler failFs ["r"] =
      { status := 500, contentType := some "text/html", body := Body.text "boom" } ∧
    handlerCore failFs ["r"] ["r"] =
      { status := 500, contentType := none, body := Body.text "" } ∧
    root_handler failFs ["r"] ≠ handlerCore failFs ["r"] ["r"] := by
  refine ⟨by decide, by decide, by decide⟩

/-- C9 counterexample: the spec's wire contract has exactly `GET /` and
`GET /<path>`, but the router also nests a static-file service at `/tower`:
a request for `/tower/logo.png` is dispatched there, not to either handler. -/
theorem tower_route_exposed :
    route "/tower/logo.png" = RouteTarget.towerStatic "logo.png" ∧
    route "/tower/logo.png" ≠ RouteTarget.rootRoute ∧
    (∀ s : String, route "/tower/logo.png" ≠ RouteTarget.wildcardRoute s) := by
  refine ⟨by decide, by decide, ?_⟩
  intro s h
  have he : route "/tower/logo.png" = RouteTarget.towerStatic "logo.png" := by decide
  rw [he] at h
  cases h

/-- C10: a successful listing body is exactly the fixed shell
`<html><body><ul>` ++ items ++ `</ul></body></html>`, and an empty directory
lists successfully as exactly `<html><body><ul></ul></body></html>`. -/
theorem listing_body_shell (fs : Fs) (d b : Segs) (entries : List DirEntry) (items : List String)
    (h1 : fs.readDir (normSegs d) = Except.ok entries)
    (h2 : renderEntries d b entries = Except.ok items) :
    list_dir fs d b =
      Except.ok ("<html><body><ul>" ++ String.join items ++ "</ul></body></html>") ∧
    list_dir emptyDirFs ["r"] ["r"] = Except.ok "<html><body><ul></ul></body></html>" := by
  refine ⟨?_, by decide⟩
  unfold list_dir
  rw [h1]
  simp [h2, Except.bind, bind]

/-- Witness for `listing_body_shell` at the concrete one-file filesystem. -/
theorem listing_body_shell_witness :
    list_dir spaceFs ["srv", "www"] ["srv", "www"] =
      Except.ok ("<html><body><ul>"
        ++ String.join ["<li>📄 <a href=\"/a b.txt\">a b.txt</a>  - 3 bytes</li>"]
        ++ "</ul></body></html>") ∧
    list_dir emptyDirFs ["r"] ["r"] = Except.ok "<html><body><ul></ul></body></html>" :=
  listing_body_shell spaceFs ["srv", "www"] ["srv", "www"]
    [{ name := "a b.txt", metadata := Except.ok { isDir := false, len := 3 } }]
    ["<li>📄 <a href=\"/a b.txt\">a b.txt</a>  - 3 bytes</li>"]
    (by decide) (by decide)

/-- C4: a request resolving to an existing file whose read succeeds is
answered 200 with exactly the file's bytes as body and the `Content-Type`
inferred from the file name's extension; the extension mapping sends `.html`
to `text/html` and `.json` to `application/json` and falls back to
`text/plain` when the extension is unknown or absent. -/
theorem file_response_exact (fs : Fs) (root : Segs) (path : String) (content : List Nat)
    (hex : fs.pathExists (normSegs (root ++ pathSegs path)) = true)
    (hnd : fs.isDir (normSegs (root ++ pathSegs path)) = false)
    (hrd : fs.readFile (normSegs (root ++ pathSegs path)) = Except.ok content) :
    handler fs root path =
      { status := 200,
        contentType := some (mimeFromPath (root ++ pathSegs path)),
        body := Body.bytes content } ∧
    mimeOfExt (extOfName "index.html") = "text/html" ∧
    mimeOfExt (extOfName "data.json") = "application/json" ∧
    mimeOfExt (extOfName "README") = "text/plain" ∧
    mimeOfExt (extOfName "weird.zzz") = "text/plain" := by
  refine ⟨?_, by decide, by decide, by decide, by decide⟩
  unfold handler handlerCore
  simp [hex, hnd, hrd]

/-- Witness for `file_response_exact`: fetching the 3-byte file `a b.txt`. -/
theorem file_response_exact_witness :
    handler spaceFs ["srv", "www"] "a b.txt" =
      { status := 200,
        contentType := some (mimeFromPath (["srv", "www"] ++ pathSegs "a b.txt")),
        body := Body.bytes [97, 32, 98] } ∧
    mimeOfExt (extOfName "index.html") = "text/html" ∧
    mimeOfExt (extOfName "data.json") = "application/json" ∧
    mimeOfExt (extOfName "README") = "text/plain" ∧
    mimeOfExt (extOfName "weird.zzz") = "text/plain" :=
  file_response_exact spaceFs ["srv", "www"] "a b.txt" [97, 32, 98]
    (by decide) (by decide) (by decide)

/-- Any entry whose metadata lookup fails makes `renderEntries` fail. -/
lemma renderEntries_error_of_meta (d b : Segs) (entries : List DirEntry) (e : DirEntry)
    (msg : String) (he : e ∈ entries) (hm : e.metadata = Except.error msg) :
    ∃ m, renderEntries d b entries = Except.error m := by
  induction entries with
  | nil => cases he
  | cons a rest ih =>
    rcases List.mem_cons.mp he with rfl | hmem
    · refine ⟨msg, ?_⟩
      unfold renderEntries renderEntry
      rw [hm]
      rfl
    · cases hren : renderEntry d b a with
      | error m2 => exact ⟨m2, by unfold renderEntries; rw [hren]; rfl⟩
      | ok item =>
        obtain ⟨m, hr⟩ := ih hmem
        refine ⟨m, ?_⟩
        unfold renderEntries
        rw [hren]
        show renderEntries d b rest >>= _ = _
        rw [hr]
        rfl

/-- C6: if directory enumeration fails, `list_dir` fails with that error; if
enumeration succeeds but any entry's metadata lookup fails, `list_dir` fails
as a whole (no partial listing); and the handler turns any `list_dir` failure
on a directory into a 500 whose body is empty (so no partial listing reaches
the client). -/
theorem listing_failure_is_500 :
    (∀ (fs : Fs) (d b : Segs) (msg : String),
        fs.readDir (normSegs d) = Except.error msg →
        list_dir fs d b = Except.error msg) ∧
    (∀ (fs : Fs) (d b : Segs) (entries : List DirEntry) (e : DirEntry) (msg : String),
        fs.readDir (normSegs d) = Except.ok entries → e ∈ entries →
        e.metadata = Except.error msg →
        ∃ m, list_dir fs d b = Except.error m) ∧
    (∀ (fs : Fs) (root p : Segs) (m : String),
        fs.pathExists (normSegs p) = true → fs.isDir (normSegs p) = true →
        list_dir fs p root = Except.error m →
        handlerCore fs root p = { status := 500, contentType := none, body := Body.text "" }) := by
  refine ⟨?_, ?_, ?_⟩
  · intro fs d b msg h
    unfold list_dir
    rw [h]
    rfl
  · intro fs d b entries e msg hrd he hm
    obtain ⟨m, hr⟩ := renderEntries_error_of_meta d b entries e msg he hm
    refine ⟨m, ?_⟩
    unfold list_dir
    rw [hrd]
    show renderEntries d b entries >>= _ = _
    rw [hr]
    rfl
  · intro fs root p m hex hdir hld
    unfold handlerCore
    simp [hex, hdir, hld]

/-- Witness for `listing_failure_is_500`: a failing enumeration, a failing
metadata lookup, and the resulting bare 500. -/
theorem listing_failure_is_500_witness :
    list_dir failFs ["r"] ["r"] = Except.error "boom" ∧
    (∃ m, list_dir metaFailFs ["r"] ["r"] = Except.error m) ∧
    handlerCore failFs ["r"] ["r", "sub"] =
      { status := 500, contentType := none, body := Body.text "" } :=
  ⟨listing_failure_is_500.1 failFs ["r"] ["r"] "boom" (by decide),
   listing_failure_is_500.2.1 metaFailFs ["r"] ["r"]
     [{ name := "ghost", metadata := Except.error "denied" }]
     { name := "ghost", metadata := Except.error "denied" } "denied"
     (by decide) (by simp) (by decide),
   listing_failure_is_500.2.2 failFs ["r"] ["r", "sub"] "boom"
     (by decide) (by decide) (by decide)⟩

/-- C7 (amended): a 500 produced by the root route carries the error's
display string as its body, while a 500 produced by the wildcard handler —
for a failed directory listing as well as for a failed file read — has an
empty body and no `Content-Type`. -/
theorem error_bodies :
    (∀ (fs : Fs) (root : Segs) (msg : String),
        list_dir fs root root = Except.error msg →
        root_handler fs root =
          { status := 500, contentType := some "text/html", body := Body.text msg }) ∧
    (∀ (fs : Fs) (root p : Segs) (msg : String),
        fs.pathExists (normSegs p) = true → fs.isDir (normSegs p) = true →
        list_dir fs p root = Except.error msg →
        handlerCore fs root p = { status := 500, contentType := none, body := Body.text "" }) ∧
    (∀ (fs : Fs) (root p : Segs) (msg : String),
        fs.pathExists (normSegs p) = true → fs.isDir (normSegs p) = false →
        fs.readFile (normSegs p) = Except.error msg →
        handlerCore fs root p = { status := 500, contentType := none, body := Body.text "" }) := by
  refine ⟨?_, ?_, ?_⟩
  · intro fs root msg h
    unfold root_handler
    rw [h]
  · intro fs root p msg hex hdir hld
    unfold handlerCore
    simp [hex, hdir, hld]
  · intro fs root p msg hex hdir hrf
    unfold handlerCore
    simp [hex, hdir, hrf]

/-- Witness for `error_bodies` at the concrete failing filesystems. -/
theorem error_bodies_witness :
    root_handler failFs ["r"] =
      { status := 500, contentType := some "text/html", body := Body.text "boom" } ∧
    handlerCore failFs ["r"] ["r", "sub"] =
      { status := 500, contentType := none, body := Body.text "" } ∧
    handlerCore raceFs ["r"] ["r", "gone"] =
      { status := 500, contentType := none, body := Body.text "" } :=
  ⟨error_bodies.1 failFs ["r"] "boom" (by decide),
   error_bodies.2.1 failFs ["r"] ["r", "sub"] "boom" (by decide) (by decide) (by decide),
   error_bodies.2.2 raceFs ["r"] ["r", "gone"] "No such file or directory"
     (by decide) (by decide) (by decide)⟩

/-- C8 (amended): on success the root route and the wildcard handler's
directory branch agree exactly (200, `text/html`, the same listing body); on
a listing failure both answer 500, but the root route's body is the error
text while the directory branch's body is empty. -/
theorem root_request_vs_directory_branch :
    (∀ (fs : Fs) (root : Segs) (body : String),
        fs.pathExists (normSegs root) = true → fs.isDir (normSegs root) = true →
        list_dir fs root root = Except.ok body →
        root_handler fs root = handlerCore fs root root ∧
        root_handler fs root =
          { status := 200, contentType := some "text/html", body := Body.text body }) ∧
    (∀ (fs : Fs) (root : Segs) (msg : String),
        fs.pathExists (normSegs root) = true → fs.isDir (normSegs root) = true →
        list_dir fs root root = Except.error msg →
        root_handler fs root =
          { status := 500, contentType := some "text/html", body := Body.text msg } ∧
        handlerCore fs root root =
          { status := 500, contentType := none, body := Body.text "" }) := by
  constructor
  · intro fs root body hex hdir hld
    constructor
    · unfold root_handler handlerCore
      rw [hld]
      simp [hex, hdir, hld]
    · unfold root_handler
      rw [hld]
  · intro fs root msg hex hdir hld
    constructor
    · unfold root_handler
      rw [hld]
    · unfold handlerCore
      simp [hex, hdir, hld]

/-- Witness for `root_request_vs_directory_branch`: agreement on a listing
that succeeds, and the two differing 500 shapes on one that fails. -/
theorem root_request_vs_directory_branch_witness :
    (root_handler spaceFs ["srv", "www"] = handlerCore spaceFs ["srv", "www"] ["srv", "www"] ∧
      root_handler spaceFs ["srv", "www"] =
        { status := 200, contentType := some "text/html",
          body := Body.text
            "<html><body><ul><li>📄 <a href=\"/a b.txt\">a b.txt</a>  - 3 bytes</li></ul></body></html>" }) ∧
    (root_handler failFs ["r"] =
        { status := 500, contentType := some "text/html", body := Body.text "boom" } ∧
      handlerCore failFs ["r"] ["r"] =
        { status := 500, contentType := none, body := Body.text "" }) :=
  ⟨root_request_vs_directory_branch.1 spaceFs ["srv", "www"]
      "<html><body><ul><li>📄 <a href=\"/a b.txt\">a b.txt</a>  - 3 bytes</li></ul></body></html>"
      (by decide) (by decide) (by decide),
   root_request_vs_directory_branch.2 failFs ["r"] "boom" (by decide) (by decide) (by decide)⟩

/-- C9 (amended): the router's full surface: `/` goes to the root listing
handler, `/tower` and everything below it go to the nested static-file
service, and every other slash-led path goes to the wildcard handler with
the leading slash stripped. -/
theorem router_surface (p : String) :
    (p = "/" → route p = RouteTarget.rootRoute) ∧
    (p = "/tower" ∨ strStarts "/tower/" p = true → ∃ r, route p = RouteTarget.towerStatic r) ∧
    (strStarts "/" p = true → p ≠ "/" → p ≠ "/tower" → strStarts "/tower/" p = false →
      route p = RouteTarget.wildcardRoute (strDrop p 1)) := by
  refine ⟨?_, ?_, ?_⟩
  · intro h
    subst h
    decide
  · intro h
    by_cases hp : p = "/tower"
    · exact ⟨"", by simp [route, hp]⟩
    · rcases h with h | h
      · exact absurd h hp
      · exact ⟨strDrop p 7, by simp [route, hp, h]⟩
  · intro h1 h2 h3 h4
    simp [route, h1, h2, h3, h4]

/-- Witness for `router_surface` on the three kinds of request path. -/
theorem router_surface_witness :
    route "/" = RouteTarget.rootRoute ∧
    (∃ r, route "/tower/logo.png" = RouteTarget.towerStatic r) ∧
    route "/abc/d" = RouteTarget.wildcardRoute (strDrop "/abc/d" 1) :=
  ⟨(router_surface "/").1 rfl,
   (router_surface "/tower/logo.png").2.1 (Or.inr (by decide)),
   (router_surface "/abc/d").2.2 (by decide) (by decide) (by decide) (by decide)⟩

/-! ### Split/join round-trip machinery -/

lemma mk_data (s : String) : String.mk s.data = s := rfl

lemma data_slash : ("/" : String).data = ['/'] := rfl

lemma stripPre_append (b p : Segs) : stripPre b (b ++ p) = some p := by
  induction b with
  | nil => rfl
  | cons x xs ih => simpa [stripPre] using ih

lemma splitCharAux_no_sep (c : Char) (xs : List Char) (h : ∀ d ∈ xs, d ≠ c) :
    ∀ acc, splitCharAux c xs acc = [acc.reverse ++ xs] := by
  induction xs with
  | nil => intro acc; simp [splitCharAux]
  | cons d ds ih =>
    intro acc
    have hd : ¬ (d = c) := h d (by simp)
    simp only [splitCharAux, if_neg hd]
    rw [ih (fun x hx => h x (by simp [hx]))]
    simp

lemma splitCharAux_sep (c : Char) (xs ys : List Char) (h : ∀ d ∈ xs, d ≠ c) :
    ∀ acc, splitCharAux c (xs ++ c :: ys) acc = (acc.reverse ++ xs) :: splitCharAux c ys [] := by
  induction xs with
  | nil => intro acc; simp [splitCharAux]
  | cons d ds ih =>
    intro acc
    have hd : ¬ (d = c) := h d (by simp)
    simp only [List.cons_append, splitCharAux, if_neg hd, List.append_eq]
    rw [ih (fun x hx => h x (by simp [hx]))]
    simp

lemma joinSegs_data_cons (s t : String) (ts : Segs) :
    (joinSegs (s :: t :: ts)).data = s.data ++ '/' :: (joinSegs (t :: ts)).data := by
  show (s ++ "/" ++ joinSegs (t :: ts)).data = _
  rw [String.data_append, String.data_append, data_slash]
  simp

lemma splitData_joinSegs (l : Segs) (hne : l ≠ [])
    (h : ∀ s ∈ l, ∀ d ∈ s.data, d ≠ '/') :
    splitCharAux '/' (joinSegs l).data [] = l.map String.data := by
  induction l with
  | nil => exact absurd rfl hne
  | cons s rest ih =>
    cases rest with
    | nil => simpa [joinSegs] using splitCharAux_no_sep '/' s.data (h s (by simp)) []
    | cons t ts =>
      rw [joinSegs_data_cons, splitCharAux_sep '/' s.data _ (h s (by simp)) []]
      rw [ih (by simp) (fun x hx => h x (by simp [hx]))]
      simp

lemma map_mk_map_data (l : Segs) : (l.map String.data).map String.mk = l := by
  induction l with
  | nil => rfl
  | cons s rest ih => simp [ih, mk_data]

lemma validSeg_facts (s : String) (h : validSeg s = true) :
    s ≠ "" ∧ s ≠ "." ∧ ∀ d ∈ s.data, d ≠ '/' := by
  unfold validSeg at h
  simp only [Bool.and_eq_true, Bool.not_eq_true', beq_eq_false_iff_ne, ne_eq] at h
  obtain ⟨⟨h1, h2⟩, h3⟩ := h
  refine ⟨h1, h2, ?_⟩
  intro d hd hdc
  subst hdc
  have hc : s.data.contains '/' = true := List.elem_eq_true_of_mem hd
  rw [hc] at h3
  cases h3

lemma pathSegs_joinSegs (l : Segs) (h : ∀ s ∈ l, validSeg s = true) :
    pathSegs (joinSegs l) = l := by
  cases l with
  | nil => rfl
  | cons s rest =>
    unfold pathSegs splitChar
    rw [splitData_joinSegs (s :: rest) (by simp) (fun x hx => (validSeg_facts x (h x hx)).2.2)]
    rw [map_mk_map_data]
    apply List.filter_eq_self.mpr
    intro a ha
    have hf := validSeg_facts a (h a ha)
    simp [hf.1, hf.2.1]

/-- C5: following a rendered link reaches the very entry it was rendered
from.  For any entry of a successful listing of the directory reached by
request segments `reqSegs`, the rendered href is `/` followed by
`reqSegs ++ [name]`, and a request for exactly that captured path makes the
handler act on the joined path `root ++ reqSegs ++ [name]` — the listed
child itself. -/
theorem listing_link_roundtrip (fs : Fs) (root reqSegs : Segs) (entries : List DirEntry)
    (e : DirEntry)
    (_hrd : fs.readDir (normSegs (root ++ reqSegs)) = Except.ok entries)
    (_he : e ∈ entries)
    (hv : validSeg e.name = true)
    (hvr : ∀ s ∈ reqSegs, validSeg s = true) :
    linkPathOf root (root ++ reqSegs) e.name = some ("/" ++ joinSegs (reqSegs ++ [e.name])) ∧
    handler fs root (joinSegs (reqSegs ++ [e.name])) =
      handlerCore fs root ((root ++ reqSegs) ++ [e.name]) := by
  have hall : ∀ s ∈ reqSegs ++ [e.name], validSeg s = true := by
    intro s hs
    rcases List.mem_append.mp hs with hmem | hmem
    · exact hvr s hmem
    · simp only [List.mem_singleton] at hmem
      subst hmem
      exact hv
  constructor
  · unfold linkPathOf
    rw [List.append_assoc, stripPre_append]
    rfl
  · unfold handler
    rw [pathSegs_joinSegs _ hall, List.append_assoc]

/-- Witness for `listing_link_roundtrip`: the one-entry listing of the root,
whose link `/a b.txt` resolves back to that file. -/
theorem listing_link_roundtrip_witness :
    linkPathOf ["srv", "www"] (["srv", "www"] ++ []) "a b.txt" =
      some ("/" ++ joinSegs ([] ++ ["a b.txt"])) ∧
    handler spaceFs ["srv", "www"] (joinSegs ([] ++ ["a b.txt"])) =
      handlerCore spaceFs ["srv", "www"] ((["srv", "www"] ++ []) ++ ["a b.txt"]) :=
  listing_link_roundtrip spaceFs ["srv", "www"] []
    [{ name := "a b.txt", metadata := Except.ok { isDir := false, len := 3 } }]
    { name := "a b.txt", metadata := Except.ok { isDir := false, len := 3 } }
    (by decide) (by simp) (by decide) (by simp)

/-- A successful `renderEntry` yields exactly the formatted item of the
entry's metadata, link and name. -/
lemma renderEntry_ok (dirPath basePath : Segs) (e : DirEntry) (item : String)
    (h : renderEntry dirPath basePath e = Except.ok item) :
    ∃ md link, e.metadata = Except.ok md ∧
      linkPathOf basePath dirPath e.name = some link ∧
      item = entryHtml (entryIcon md) link e.name md.len := by
  unfold renderEntry at h
  cases hm : e.metadata with
  | error m =>
    rw [hm] at h
    cases h
  | ok md =>
    rw [hm] at h
    cases hl : linkPathOf basePath dirPath e.name with
    | none =>
      rw [hl] at h
      cases h
    | some link =>
      rw [hl] at h
      refine ⟨md, link, rfl, rfl, ?_⟩
      cases h
      rfl

/-- C3 (amended): a successful rendering emits exactly one list item per
immediate child, in order; each item's href is the entry's full path made
relative to the root and prefixed with `/` (verbatim, not URL-encoded), and
each anchor's visible text is the entry's bare name. -/
theorem listing_items_shape (dirPath basePath : Segs) (entries : List DirEntry)
    (items : List String)
    (h : renderEntries dirPath basePath entries = Except.ok items) :
    items.length = entries.length ∧
    ∀ i (hi : i < entries.length) (hj : i < items.length),
      ∃ md link,
        (entries.get ⟨i, hi⟩).metadata = Except.ok md ∧
        linkPathOf basePath dirPath (entries.get ⟨i, hi⟩).name = some link ∧
        items.get ⟨i, hj⟩ =
          entryHtml (entryIcon md) link (entries.get ⟨i, hi⟩).name md.len := by
  induction entries generalizing items with
  | nil =>
    simp only [renderEntries] at h
    cases h
    exact ⟨rfl, fun i hi => absurd hi (by simp)⟩
  | cons e rest ih =>
    cases hren : renderEntry dirPath basePath e with
    | error m =>
      rw [renderEntries, hren] at h
      cases h
    | ok item =>
      cases hrest : renderEntries dirPath basePath rest with
      | error m =>
        rw [renderEntries, hren, hrest] at h
        cases h
      | ok tailItems =>
        rw [renderEntries, hren, hrest] at h
        have h2 : Except.ok (item :: tailItems) = Except.ok items := h
        cases h2
        obtain ⟨hlen, htail⟩ := ih tailItems hrest
        refine ⟨by simpa using hlen, ?_⟩
        intro i hi hj
        cases i with
        | zero => simpa using renderEntry_ok dirPath basePath e item hren
        | succ n =>
          exact htail n (by simpa using hi) (by simpa using hj)

/-- Witness for `listing_items_shape` on the one-entry listing. -/
theorem listing_items_shape_witness :
    (["<li>📄 <a href=\"/a b.txt\">a b.txt</a>  - 3 bytes</li>"] : List String).length =
      ([{ name := "a b.txt", metadata := Except.ok { isDir := false, len := 3 } }] :
        List DirEntry).length ∧
    ∃ md link,
      (([{ name := "a b.txt", metadata := Except.ok { isDir := false, len := 3 } }] :
          List DirEntry).get ⟨0, by simp⟩).metadata = Except.ok md ∧
      linkPathOf ["srv", "www"] ["srv", "www"]
          (([{ name := "a b.txt", metadata := Except.ok { isDir := false, len := 3 } }] :
            List DirEntry).get ⟨0, by simp⟩).name = some link ∧
      (["<li>📄 <a href=\"/a b.txt\">a b.txt</a>  - 3 bytes</li>"] : List String).get
          ⟨0, by simp⟩ =
        entryHtml (entryIcon md) link
          (([{ name := "a b.txt", metadata := Except.ok { isDir := false, len := 3 } }] :
            List DirEntry).get ⟨0, by simp⟩).name md.len :=
  ⟨(listing_items_shape ["srv", "www"] ["srv", "www"]
      [{ name := "a b.txt", metadata := Except.ok { isDir := false, len := 3 } }]
      ["<li>📄 <a href=\"/a b.txt\">a b.txt</a>  - 3 bytes</li>"] (by decide)).1,
   (listing_items_shape ["srv", "www"] ["srv", "www"]
      [{ name := "a b.txt", metadata := Except.ok { isDir := false, len := 3 } }]
      ["<li>📄 <a href=\"/a b.txt\">a b.txt</a>  - 3 bytes</li>"] (by decide)).2
     0 (by simp) (by simp)⟩

end THS
